import Mathlib

/-!
Verification development for the transaction-assembly and fee-estimation
engine of a blockchain wallet service (Go package `api`, files
`transact.go` and `receivers.go`).

The Go code is shallowly embedded: Go `int64` values are modelled as `Int`
with an explicit two's-complement wrap (`wrap64`) at the arithmetic
operations the source performs on `int64`, the overflow-checked
multiplication `checked.MulInt64` is modelled by `checkedMulInt64`
(returning `none` exactly when the mathematical product leaves the
`int64` range), and fallible Go code returning `(value, error)` pairs is
modelled with `Except`.  The `float64` rounding step of `EstimateTxGas`
(`math.Ceil(float64(x) / 100000)`) is modelled by exact integer ceiling
division (`goCeilDiv`), which agrees with the Go computation whenever the
intermediate magnitudes stay below `2 ^ 53`, the range on which `float64`
represents integers exactly.

External collaborators that are not part of the two source files
(account manager, key store, persistent store, chain state, the external
transaction builder, serialization) are passed in as explicit capability
parameters, so every theorem quantifies over their behaviour.
-/

deriving instance DecidableEq for Except

/-- Two's-complement wrap of a mathematical integer into the `int64`
range, modelling Go's wrapping `int64` arithmetic. -/
def wrap64 (x : Int) : Int := (x + 2 ^ 63) % 2 ^ 64 - 2 ^ 63

/-- The mathematical integer `x` is representable as a Go `int64`. -/
def fitsInt64 (x : Int) : Prop := -(2 ^ 63) ≤ x ∧ x < 2 ^ 63

instance (x : Int) : Decidable (fitsInt64 x) := by
  unfold fitsInt64; infer_instance

/-- The mathematical integer `x` lies in the region where `float64`
represents integers exactly.  On this region the `float64` total-fee
rounding of `EstimateTxGas` agrees with exact ceiling division (see
`goCeilDiv`); outside it the two can differ, so every theorem equating
the total fee with the ceiling formula carries this bound. -/
def fitsFloat64 (x : Int) : Prop := -(2 ^ 53) < x ∧ x < 2 ^ 53

instance (x : Int) : Decidable (fitsFloat64 x) := by
  unfold fitsFloat64; infer_instance

/-- Model of `checked.MulInt64` from `math/checked`: the product of two
`int64` values together with an overflow flag; `none` models `ok = false`. -/
def checkedMulInt64 (a b : Int) : Option Int :=
  if fitsInt64 (a * b) then some (a * b) else none

/-- Model of `int64(math.Ceil(float64(a) / 100000.0)) `: exact ceiling
division.  Faithful to the `float64` computation exactly when
`|a| < 2 ^ 53`: there `float64(a)` is exact, the quotient magnitude is
below `2 ^ 53 / 100000 < 2 ^ 37`, so half an ulp of the correctly
rounded quotient is at most `2 ^ (-17)`, strictly below the minimal
distance `1 / 100000` of a non-integral quotient from an integer —
rounding can therefore never carry the quotient across an integer and
its ceiling agrees with the exact one.  Above `2 ^ 53` the conversion
itself rounds and the two ceilings can differ. -/
def goCeilDiv (a b : Int) : Int := (a + b - 1) / b

theorem wrap64_eq_of_fits (x : Int) (h : fitsInt64 x) : wrap64 x = x := by
  obtain ⟨h1, h2⟩ := h
  unfold wrap64
  rw [Int.emod_eq_of_lt (by omega) (by omega)]
  omega

/-- `goCeilDiv` computes the exact rational ceiling, for a positive
divisor. -/
theorem goCeilDiv_eq_ceil (a b : Int) (hb : 0 < b) :
    goCeilDiv a b = ⌈(a : ℚ) / (b : ℚ)⌉ := by
  unfold goCeilDiv
  have hbq : (0 : ℚ) < (b : ℚ) := by exact_mod_cast hb
  have hle : ((a + b - 1) / b) * b ≤ a + b - 1 := Int.ediv_mul_le _ (by omega)
  have hlt : a + b - 1 < ((a + b - 1) / b + 1) * b := Int.lt_ediv_add_one_mul_self _ hb
  have h1 : ((a + b - 1) / b - 1) * b < a := by nlinarith
  have h2 : a ≤ ((a + b - 1) / b) * b := by nlinarith
  symm
  rw [Int.ceil_eq_iff]
  constructor
  · rw [lt_div_iff hbq]
    exact_mod_cast h1
  · rw [div_le_iff hbq]
    exact_mod_cast h2

/-! ## Witness components and signing instructions (`txbuilder` shapes) -/

/-- `txbuilder` witness component: a tagged variant over the two witness
kinds, both carrying a key list and a quorum, as used by the estimator. -/
inductive WitnessComponent : Type
  | SignatureWitness (Keys : List Nat) (Quorum : Nat)
  | RawTxSigWitness (Keys : List Nat) (Quorum : Nat)
deriving DecidableEq, Repr

/-- Per-input signing instruction: the ordered witness components. -/
structure SigningInstruction where
  WitnessComponents : List WitnessComponent
deriving DecidableEq, Repr

/-- Number of keys of a witness component (uniform over both kinds). -/
def wcKeys : WitnessComponent → Nat
  | WitnessComponent.SignatureWitness Keys _ => Keys.length
  | WitnessComponent.RawTxSigWitness Keys _ => Keys.length

/-- Quorum of a witness component (uniform over both kinds). -/
def wcQuorum : WitnessComponent → Nat
  | WitnessComponent.SignatureWitness _ Quorum => Quorum
  | WitnessComponent.RawTxSigWitness _ Quorum => Quorum

/-- The spec's per-component P2WSH gas formula,
`738 + (984 * keyCount - 72 * quorum - 63)`. -/
def wcGas (w : WitnessComponent) : Int :=
  738 + (984 * (wcKeys w : Int) - 72 * (wcQuorum w : Int) - 63)

/-- Accumulating loop of `estimateP2WSHGas` over the witness components,
with the two `switch` branches written out as in the source. -/
def p2wshGasLoop : List WitnessComponent → Int → Int
  | [], acc => acc
  | WitnessComponent.SignatureWitness Keys Quorum :: rest, acc =>
      p2wshGasLoop rest
        (acc + (738 + (984 * (Keys.length : Int) - 72 * (Quorum : Int) - 63)))
  | WitnessComponent.RawTxSigWitness Keys Quorum :: rest, acc =>
      p2wshGasLoop rest
        (acc + (738 + (984 * (Keys.length : Int) - 72 * (Quorum : Int) - 63)))

/-- `estimateP2WSHGas` from `transact.go`: total VM gas contributed by the
witness components of one signing instruction. -/
def estimateP2WSHGas (sigInst : SigningInstruction) : Int :=
  p2wshGasLoop sigInst.WitnessComponents 0

/-- Accumulating inner loop of `estimateSignSize`: each witness component
of either kind contributes `quorum * 300`. -/
def signSizeInner : List WitnessComponent → Int → Int
  | [], acc => acc
  | WitnessComponent.SignatureWitness _ Quorum :: rest, acc =>
      signSizeInner rest (acc + (Quorum : Int) * 300)
  | WitnessComponent.RawTxSigWitness _ Quorum :: rest, acc =>
      signSizeInner rest (acc + (Quorum : Int) * 300)

/-- Accumulating outer loop of `estimateSignSize` over the signing
instructions. -/
def signSizeLoop : List SigningInstruction → Int → Int
  | [], acc => acc
  | sigInst :: rest, acc => signSizeLoop rest (signSizeInner sigInst.WitnessComponents acc)

/-- `estimateSignSize` from `transact.go`: the estimated witness byte size,
`quorum * 300` per witness component. -/
def estimateSignSize (signingInstructions : List SigningInstruction) : Int :=
  signSizeLoop signingInstructions 0

theorem p2wshGasLoop_eq (l : List WitnessComponent) (acc : Int) :
    p2wshGasLoop l acc = acc + (l.map wcGas).sum := by
  induction l generalizing acc with
  | nil => simp [p2wshGasLoop]
  | cons w rest ih =>
    cases w with
    | SignatureWitness Keys Quorum =>
      simp only [p2wshGasLoop, ih, List.map_cons, List.sum_cons, wcGas, wcKeys, wcQuorum]
      ring
    | RawTxSigWitness Keys Quorum =>
      simp only [p2wshGasLoop, ih, List.map_cons, List.sum_cons, wcGas, wcKeys, wcQuorum]
      ring

theorem signSizeInner_eq (l : List WitnessComponent) (acc : Int) :
    signSizeInner l acc = acc + (l.map (fun w => (wcQuorum w : Int) * 300)).sum := by
  induction l generalizing acc with
  | nil => simp [signSizeInner]
  | cons w rest ih =>
    cases w with
    | SignatureWitness Keys Quorum =>
      simp only [signSizeInner, ih, List.map_cons, List.sum_cons, wcQuorum]
      ring
    | RawTxSigWitness Keys Quorum =>
      simp only [signSizeInner, ih, List.map_cons, List.sum_cons, wcQuorum]
      ring

theorem signSizeLoop_eq (l : List SigningInstruction) (acc : Int) :
    signSizeLoop l acc =
      acc + (l.map (fun si =>
        (si.WitnessComponents.map (fun w => (wcQuorum w : Int) * 300)).sum)).sum := by
  induction l generalizing acc with
  | nil => simp [signSizeLoop]
  | cons si rest ih =>
    simp only [signSizeLoop, ih, signSizeInner_eq, List.map_cons, List.sum_cons]
    ring

/-! ## The gas estimator `EstimateTxGas` -/

/-- Classification of one transaction input of the template, by what the
two resolution steps of the estimation loop find for it.  Modelled from
the spec: the spend lookup (`template.Transaction.Spend`), the output
lookup (`template.Transaction.Output`) and the script classifiers
`segwit.IsP2WPKHScript` / `segwit.IsP2WSHScript` live outside the two
source files; an input either fails one of the lookups (`unresolved`,
the loop's `continue`), or resolves to a P2WPKH output, a P2WSH output,
or an output with any other control program. -/
inductive InputKind : Type
  | unresolved
  | p2wpkh
  | p2wsh
  | other
deriving DecidableEq, Repr

/-- The part of a `txbuilder.Template` that `EstimateTxGas` reads.
`baseTxSize` models `int64(len(data))` for the marshalled transaction
data (the marshalling itself is external serialization code); `inputs`
models the classification of `template.Transaction.Tx.InputIDs` in
position order. -/
structure GasTemplate where
  baseTxSize : Int
  SigningInstructions : List SigningInstruction
  inputs : List InputKind
deriving DecidableEq, Repr

/-- Errors of the embedded estimator: `mathError` is the source's
"calculate txsize gas got a math error"; `indexOutOfRange` models the Go
runtime panic raised by `template.SigningInstructions[pos]` when `pos` is
out of bounds. -/
inductive GasError : Type
  | mathError
  | indexOutOfRange
deriving DecidableEq, Repr

/-- The estimation loop over the template's inputs: accumulates the
P2WPKH gas (`1419` per P2WPKH input) and the P2WSH gas
(`estimateP2WSHGas` of `SigningInstructions[pos]`, the unchecked access
modelled by `List.get?` with an `indexOutOfRange` fault on `none`). -/
def vmGasLoop (insts : List SigningInstruction) :
    List InputKind → Nat → Int → Int → Except GasError (Int × Int)
  | [], _, accPKH, accSH => Except.ok (accPKH, accSH)
  | InputKind.unresolved :: rest, pos, accPKH, accSH =>
      vmGasLoop insts rest (pos + 1) accPKH accSH
  | InputKind.p2wpkh :: rest, pos, accPKH, accSH =>
      vmGasLoop insts rest (pos + 1) (accPKH + 1419) accSH
  | InputKind.p2wsh :: rest, pos, accPKH, accSH =>
      match insts.get? pos with
      | none => Except.error GasError.indexOutOfRange
      | some sigInst => vmGasLoop insts rest (pos + 1) accPKH (accSH + estimateP2WSHGas sigInst)
  | InputKind.other :: rest, pos, accPKH, accSH =>
      vmGasLoop insts rest (pos + 1) accPKH accSH

/-- Response of `EstimateTxGas`: total, storage and vm fee figures. -/
structure EstimateTxGasResp where
  TotalNeu : Int
  StorageNeu : Int
  VMNeu : Int
deriving DecidableEq, Repr

/-- `EstimateTxGas` from `transact.go`, parameterized by the consensus
constants `consensus.StorageGasRate` and `consensus.VMGasRate` (they are
defined outside the two source files).  The storage-gas multiplication
goes through `checked.MulInt64`; every other `int64` operation is
unchecked Go arithmetic, modelled by `wrap64`.  The `float64` rounding of
the total is modelled by `goCeilDiv`, exact below `2 ^ 53`. -/
def EstimateTxGas (storageGasRate vmGasRate : Int) (template : GasTemplate) :
    Except GasError EstimateTxGasResp :=
  match checkedMulInt64 (wrap64 (template.baseTxSize + estimateSignSize template.SigningInstructions))
      storageGasRate with
  | none => Except.error GasError.mathError
  | some totalTxSizeGas =>
    match vmGasLoop template.SigningInstructions template.inputs 0 0 0 with
    | Except.error e => Except.error e
    | Except.ok (totalP2WPKHGas, totalP2WSHGas) =>
      Except.ok
        { TotalNeu :=
            wrap64 (goCeilDiv (wrap64 (wrap64 (totalTxSizeGas + totalP2WPKHGas + totalP2WSHGas)
              * vmGasRate)) 100000 * 100000)
          StorageNeu := wrap64 (totalTxSizeGas * vmGasRate)
          VMNeu := wrap64 ((totalP2WPKHGas + totalP2WSHGas) * vmGasRate) }

/-- Quorum doubling on a witness component, preserving its kind and keys. -/
def doubleWitness : WitnessComponent → WitnessComponent
  | WitnessComponent.SignatureWitness Keys Quorum =>
      WitnessComponent.SignatureWitness Keys (2 * Quorum)
  | WitnessComponent.RawTxSigWitness Keys Quorum =>
      WitnessComponent.RawTxSigWitness Keys (2 * Quorum)

/-- Quorum doubling on a signing instruction. -/
def doubleInst (si : SigningInstruction) : SigningInstruction :=
  SigningInstruction.mk (si.WitnessComponents.map doubleWitness)

/-- A template with the quorum of every witness component doubled. -/
def doubleTemplate (t : GasTemplate) : GasTemplate :=
  GasTemplate.mk t.baseTxSize (t.SigningInstructions.map doubleInst) t.inputs

/-! ## Build requests and `buildSingle` -/

/-- A JSON-ish value stored in an action map (`map[string]interface{}`
in the source); only the shapes the embedded code reads are modelled. -/
inductive ActVal : Type
  | str (s : String)
  | nat (n : Nat)
deriving DecidableEq, Repr

/-- A Go `map[string]interface{}` action, as an association list with at
most one binding per key. -/
def ActMap : Type := List (String × ActVal)

instance : DecidableEq ActMap := by
  unfold ActMap; infer_instance

/-- `m[k] = v` on a Go map: overwrite the binding of `k` if present,
otherwise add it. -/
def mapSet (m : ActMap) (k : String) (v : ActVal) : ActMap :=
  match m with
  | [] => [(k, v)]
  | (k2, v2) :: rest => if k2 = k then (k, v) :: rest else (k2, v2) :: mapSet rest k v

/-- `delete(m, k)` on a Go map. -/
def mapDel (m : ActMap) (k : String) : ActMap :=
  m.filter (fun p => p.1 != k)

/-- Map lookup, `m[k]` with its presence flag. -/
def mapGet (m : ActMap) (k : String) : Option ActVal :=
  (m.find? (fun p => p.1 == k)).map (fun p => p.2)

/-- The action type tag, when `act["type"]` holds a string
(the `act["type"].(string)` assertion of the source). -/
def actionTag (act : ActMap) : Option String :=
  match mapGet act "type" with
  | some (ActVal.str t) => some t
  | _ => none

/-- `BuildRequest`: the ordered action maps.  The TTL, raw-skeleton and
time-range fields are consumed only by the external build capability and
are folded into the build oracle of `buildSingle`. -/
structure BuildRequest where
  Actions : List ActMap
deriving DecidableEq

/-- Error classes surfaced by the embedded build pipeline, mirroring
`ErrBadActionType`, `ErrBadActionConstruction`, `ErrBadAction`, and the
errors propagated from the collaborators. -/
inductive BuildErr : Type
  | badActionType (i : Nat)
  | badActionConstruction
  | badAction (i : Nat) (msg : String)
  | collaborator (msg : String)
deriving DecidableEq, Repr

/-- Character-list prefix test, modelling `strings.HasPrefix` (written
structurally so that proofs can evaluate it). -/
def charsStart : List Char → List Char → Bool
  | [], _ => true
  | _ :: _, [] => false
  | c :: cs, d :: ds => c == d && charsStart cs ds

/-- Whether a type tag counts as an input action in
`onlyHaveInputActions`: the tag starts with "spend" or equals "issue". -/
def isInputAction (t : String) : Bool :=
  charsStart "spend".data t.data || t == "issue"

/-- The counting loop of `onlyHaveInputActions`: errors with
`badActionType i` at the first action whose "type" entry is not a
string, otherwise counts the input actions. -/
def countInputActions : List ActMap → Nat → Except BuildErr Nat
  | [], _ => Except.ok 0
  | act :: rest, i =>
    match actionTag act with
    | none => Except.error (BuildErr.badActionType i)
    | some t =>
      match countInputActions rest (i + 1) with
      | Except.error e => Except.error e
      | Except.ok c => Except.ok ((if isInputAction t then 1 else 0) + c)

/-- `onlyHaveInputActions` from `transact.go`: every action of the
request is an input action. -/
def onlyHaveInputActions (req : BuildRequest) : Except BuildErr Bool :=
  match countInputActions req.Actions 0 with
  | Except.error e => Except.error e
  | Except.ok c => Except.ok (c == req.Actions.length)

/-- The six keys of the action-decoder registry (`actionDecoder`). -/
def recognizedTags : List String :=
  ["control_address", "control_program", "issue", "retire",
   "spend_account", "spend_account_unspent_output"]

/-- The decoding loop of `buildSingle`: per action, take the type tag
(`badActionType i` when absent), look it up in the registry
(`badActionType i` when unknown), and run the decoder supplied by the
collaborators (`badAction i` wrapping the inner message on failure).
The JSON re-marshalling of the filtered action cannot fail for a map of
strings and numbers and is not modelled. -/
def decodeActions {α : Type} (dec : String → ActMap → Except String α) :
    List ActMap → Nat → Except BuildErr (List α)
  | [], _ => Except.ok []
  | act :: rest, i =>
    match actionTag act with
    | none => Except.error (BuildErr.badActionType i)
    | some t =>
      if recognizedTags.contains t then
        match dec t act with
        | Except.error msg => Except.error (BuildErr.badAction i msg)
        | Except.ok a =>
          match decodeActions dec rest (i + 1) with
          | Except.error e => Except.error e
          | Except.ok rest2 => Except.ok (a :: rest2)
      else Except.error (BuildErr.badActionType i)

/-- The template produced by the external builder: its signing
instructions may still be absent (`nil` in Go), which `buildSingle`
normalizes away. -/
structure BuiltTemplate (σ : Type) where
  SigningInstructionsOpt : Option (List σ)
deriving DecidableEq

/-- The normalization step of `buildSingle`: an absent signing
instruction sequence becomes the empty sequence. -/
def normalizeTemplate {σ : Type} (tpl : BuiltTemplate σ) : BuiltTemplate σ :=
  BuiltTemplate.mk (some (tpl.SigningInstructionsOpt.getD []))

/-- `buildSingle` from `transact.go`, with the collaborators passed as
capabilities: `complete` is `completeMissingIDs` (alias resolution, which
rewrites identifier fields but not type tags), `dec` the per-tag payload
decoders behind the registry, `merge` is `account.MergeSpendAction`, and
`build` is `txbuilder.Build` together with the TTL computation and the
per-action error flattening, both of which only shape the collaborator
error message. -/
def buildSingle {α σ : Type}
    (complete : BuildRequest → Except BuildErr BuildRequest)
    (dec : String → ActMap → Except String α)
    (merge : List α → List α)
    (build : List α → Except BuildErr (BuiltTemplate σ))
    (req : BuildRequest) : Except BuildErr (BuiltTemplate σ) :=
  match complete req with
  | Except.error e => Except.error e
  | Except.ok req2 =>
    match onlyHaveInputActions req2 with
    | Except.error e => Except.error e
    | Except.ok true => Except.error BuildErr.badActionConstruction
    | Except.ok false =>
      match decodeActions dec req2.Actions 0 with
      | Except.error e => Except.error e
      | Except.ok acts =>
        match build (merge acts) with
        | Except.error e => Except.error e
        | Except.ok tpl => Except.ok (normalizeTemplate tpl)

/-! ## The peg-in claim assembler `claimPeginTx` -/

/-- Byte strings (`[]byte`), as lists of byte values. -/
def Bytes : Type := List Nat

instance : DecidableEq Bytes := by
  unfold Bytes; infer_instance

/-- The bytes of a Go string (`[]byte(s)` conversions in the source). -/
def strBytes (s : String) : Bytes :=
  s.data.map Char.toNat

/-- An output of the parent-chain transaction: its control program and
amount, the two fields `claimPeginTx` reads. -/
structure TxOutput where
  ControlProgram : Bytes
  Amount : Nat
deriving DecidableEq

/-- The caller-supplied raw parent-chain transaction (`types.Tx`): its
outputs and its identifying hash `ID` (hashes modelled as opaque
numbers). -/
structure Tx where
  Outputs : List TxOutput
  ID : Nat
deriving DecidableEq

/-- The search loop of `getPeginTxnOutputIndex` over the outputs: the
index of the first output whose control program equals `controlProg`,
and `0` once the loop falls through without a match. -/
def outputIndexLoop (controlProg : Bytes) : List TxOutput → Nat → Nat
  | [], _ => 0
  | output :: rest, index =>
    if output.ControlProgram = controlProg then index
    else outputIndexLoop controlProg rest (index + 1)

/-- `getPeginTxnOutputIndex` from `transact.go`. -/
def getPeginTxnOutputIndex (rawTx : Tx) (controlProg : Bytes) : Nat :=
  outputIndexLoop controlProg rawTx.Outputs 0

/-- A locally known control program, as enumerated by
`AccountMgr.ListControlProgram` (only its `ControlProgram` field is
read). -/
structure CtrlProgram where
  ControlProgram : Bytes
deriving DecidableEq

/-- Outcome of the contract lookup of `claimPeginTx`.  Modelled from the
spec: hashing the claim script with `sha3pool.Sum256`, fetching
`account.ContractKey(hash)` from the wallet store and `json.Unmarshal` of
the record are external; a script either has no stored record
(`missing`, `a.wallet.DB.Get` returns nil), a record that fails to
unmarshal (`malformed`), or a record carrying the resolving account. -/
inductive ContractData : Type
  | missing
  | malformed
  | valid (AccountID : String)

/-- One input of the freshly built claim template: the peg-in witness
stack and the peg-in flag, the two fields `claimPeginTx` writes. -/
structure PegInput where
  Peginwitness : List Bytes
  IsPegin : Bool
deriving DecidableEq

/-- The transaction part of the claim template built by `buildSingle`
(only its inputs are touched afterwards). -/
structure ClaimTemplate where
  Inputs : List PegInput
deriving DecidableEq

/-- The collaborators consumed by `claimPeginTx`, as explicit
capabilities: control-program enumeration, peg control-program
derivation (`GetPeginControlPrograms`, whose second component is `none`
when the Go function returns a nil program), the contract lookup keyed by
the claim script, address derivation, the template build (the call into
`buildSingle` with its own collaborators already fixed), signing, and
finalization; plus the parent genesis hash constant and the canonical
transaction serializer used for the witness stack. -/
structure ClaimEnv where
  listControlProgram : Except String (List CtrlProgram)
  getPeginControlPrograms : Bytes → String × Option Bytes
  contractData : String → ContractData
  createAddress : String → Except String String
  build : List ActMap → Except String ClaimTemplate
  sign : ClaimTemplate → String → Except String Unit
  finalizeTx : Tx → Except String Unit
  parentGenesisBlockHash : Bytes
  marshalTx : Tx → Bytes

/-- A peg-in claim request: the fields of the `claimPeginTx` input
struct. -/
structure ClaimIns where
  Password : String
  RawTx : Tx
  TxOutProof : String
  ClaimScript : String

/-- The scan of `claimPeginTx` over the locally known control programs:
each program that maps to a non-nil peg control program overwrites
`nOut` with `getPeginTxnOutputIndex` of that program; nil resolutions
are skipped.  The loop never exits early. -/
def scanControlPrograms (env : ClaimEnv) (tx : Tx) :
    List CtrlProgram → Nat → Nat
  | [], nOut => nOut
  | cp :: rest, nOut =>
    match (env.getPeginControlPrograms cp.ControlProgram).2 with
    | none => scanControlPrograms env tx rest nOut
    | some controlProg =>
        scanControlPrograms env tx rest (getPeginTxnOutputIndex tx controlProg)

/-- The claim-target resolution of `claimPeginTx` (lines around the
`nOut` variable): `nOut` starts at the sentinel `len(Outputs)`; with an
explicit claim script the peg program derived from it is matched
directly (a nil program behaves as the empty byte string under
`bytes.Equal`), otherwise every locally known control program is
scanned; finally the sentinel check produces the no-matching-output
error. -/
def resolveClaimOutput (env : ClaimEnv) (ins : ClaimIns) : Except String Nat :=
  match
    (if ins.ClaimScript = "" then
      match env.listControlProgram with
      | Except.error e => Except.error e
      | Except.ok cps =>
          Except.ok (scanControlPrograms env ins.RawTx cps ins.RawTx.Outputs.length)
    else
      Except.ok (getPeginTxnOutputIndex ins.RawTx
        (((env.getPeginControlPrograms (strBytes ins.ClaimScript)).2).getD []))) with
  | Except.error e => Except.error e
  | Except.ok nOut =>
    if nOut = ins.RawTx.Outputs.length then
      Except.error "Failed to find output in bytom to the mainchain_address from getpeginaddress"
    else Except.ok nOut

/-- The build-request actions synthesized by `claimPeginTx` (the block
between `buildReqs := &BuildRequest{}` and the `buildSingle` call).  In
the source a single Go map `act` is allocated, appended to the action
list three times and mutated in between; Go maps are reference values,
so all three list entries alias the one map and observe its final state.
The successive `let act` bindings mirror the successive mutations; the
resulting list holds the final map three times. -/
def claimBuildActions (accountID : String) (amount : Nat) (address : String) :
    List ActMap :=
  let act := mapSet [] "type" (ActVal.str "spend_account")
  let act := mapSet act "asset_id"
    (ActVal.str "ffffffffffffffffffffffffffffffffffffffffffffffffffffffffffffffff")
  let act := mapSet act "amount" (ActVal.nat 0)
  let act := mapSet act "account_id" (ActVal.str accountID)
  let act := mapSet act "amount" (ActVal.nat amount)
  let act := mapSet act "type" (ActVal.str "control_address")
  let act := mapSet act "amount" (ActVal.nat amount)
  let act := mapSet act "address" (ActVal.str address)
  let act := mapDel act "account_id"
  [act, act, act]

/-- The peg-in witness stack attached by `claimPeginTx`: claimed amount
in decimal, parent genesis block hash, claim script, serialized parent
transaction, inclusion proof. -/
def peginWitnessStack (env : ClaimEnv) (ins : ClaimIns) (amount : Nat) : List Bytes :=
  [strBytes (toString amount),
   env.parentGenesisBlockHash,
   strBytes ins.ClaimScript,
   env.marshalTx ins.RawTx,
   strBytes ins.TxOutProof]

/-- `tmpl.Transaction.Inputs[0].Peginwitness = stack` and
`tmpl.Transaction.Inputs[0].IsPegin = true`: the unchecked index `0`
faults (Go runtime panic) when the built template has no inputs. -/
def setPeginWitness (tmpl : ClaimTemplate) (stack : List Bytes) :
    Except String ClaimTemplate :=
  match tmpl.Inputs with
  | [] => Except.error "runtime panic: index out of range on template inputs"
  | _ :: rest => Except.ok (ClaimTemplate.mk (PegInput.mk stack true :: rest))

/-- The claimed amount `ins.RawTx.Outputs[nOut].Amount`, read three
times by `claimPeginTx`; in bounds whenever the sentinel check has
passed on a non-empty output list. -/
def claimAmount (ins : ClaimIns) (nOut : Nat) : Nat :=
  (ins.RawTx.Outputs.getD nOut (TxOutput.mk [] 0)).Amount

/-- `claimPeginTx` from `transact.go`: resolve the claim target, look up
the contract record for the claim script, synthesize the three-action
build request, build, attach the peg-in witness stack to the first
input, sign, and finalize.  The transaction handed to `FinalizeTx` and
the hash returned on success are those of `ins.RawTx`, the
caller-supplied parent transaction. -/
def claimPeginTx (env : ClaimEnv) (ins : ClaimIns) : Except String Nat :=
  match resolveClaimOutput env ins with
  | Except.error e => Except.error e
  | Except.ok nOut =>
    match env.contractData ins.ClaimScript with
    | ContractData.missing => Except.error "Failed to find control program through claim script"
    | ContractData.malformed => Except.error "Failed on unmarshal control program"
    | ContractData.valid accountID =>
      match env.createAddress accountID with
      | Except.error e => Except.error e
      | Except.ok address =>
        match env.build (claimBuildActions accountID (claimAmount ins nOut) address) with
        | Except.error e => Except.error e
        | Except.ok tmpl =>
          match setPeginWitness tmpl
              (peginWitnessStack env ins (claimAmount ins nOut)) with
          | Except.error e => Except.error e
          | Except.ok tmpl2 =>
            match env.sign tmpl2 ins.Password with
            | Except.error e => Except.error e
            | Except.ok _ =>
              match env.finalizeTx ins.RawTx with
              | Except.error e => Except.error e
              | Except.ok _ => Except.ok ins.RawTx.ID

/-! ## Helper lemmas -/

theorem wcQuorum_doubleWitness (w : WitnessComponent) :
    wcQuorum (doubleWitness w) = 2 * wcQuorum w := by
  cases w <;> rfl

theorem quorumSum_doubleWitness (l : List WitnessComponent) :
    ((l.map doubleWitness).map (fun w => (wcQuorum w : Int) * 300)).sum =
      2 * (l.map (fun w => (wcQuorum w : Int) * 300)).sum := by
  induction l with
  | nil => simp
  | cons w rest ih =>
    simp only [List.map_cons, List.sum_cons, ih, wcQuorum_doubleWitness]
    push_cast
    ring

theorem estimateSignSize_doubleInst (insts : List SigningInstruction) :
    estimateSignSize (insts.map doubleInst) = 2 * estimateSignSize insts := by
  simp only [estimateSignSize, signSizeLoop_eq, zero_add]
  induction insts with
  | nil => simp
  | cons si rest ih =>
    simp only [List.map_cons, List.sum_cons, ih, doubleInst]
    rw [quorumSum_doubleWitness]
    ring

theorem vmGasLoop_fst_congr (insts insts2 : List SigningInstruction)
    (hlen : insts.length = insts2.length) :
    ∀ (inputs : List InputKind) (pos : Nat) (a b b2 : Int),
      Except.map Prod.fst (vmGasLoop insts inputs pos a b) =
        Except.map Prod.fst (vmGasLoop insts2 inputs pos a b2) := by
  intro inputs
  induction inputs with
  | nil => intro pos a b b2; rfl
  | cons k rest ih =>
    intro pos a b b2
    cases k with
    | unresolved => exact ih (pos + 1) a b b2
    | p2wpkh => exact ih (pos + 1) (a + 1419) b b2
    | other => exact ih (pos + 1) a b b2
    | p2wsh =>
      cases hg : insts.get? pos with
      | none =>
        have hg2 : insts2.get? pos = none := by
          rw [List.get?_eq_none] at hg ⊢
          omega
        simp only [vmGasLoop, hg, hg2]
      | some si =>
        have hg2 : ∃ si2, insts2.get? pos = some si2 := by
          cases h2 : insts2.get? pos with
          | none =>
            rw [List.get?_eq_none] at h2
            have : ¬ (insts.length ≤ pos) := by
              intro hle
              rw [← List.get?_eq_none] at hle
              rw [hg] at hle
              cases hle
            omega
          | some si2 => exact ⟨si2, rfl⟩
        obtain ⟨si2, hg2⟩ := hg2
        simp only [vmGasLoop, hg, hg2]
        exact ih (pos + 1) a (b + estimateP2WSHGas si) (b2 + estimateP2WSHGas si2)

theorem vmGasLoop_total (insts : List SigningInstruction) :
    ∀ (inputs : List InputKind) (pos : Nat) (a b : Int),
      (∀ i, i < inputs.length → inputs.get? i = some InputKind.p2wsh →
        pos + i < insts.length) →
      vmGasLoop insts inputs pos a b ≠ Except.error GasError.indexOutOfRange := by
  intro inputs
  induction inputs with
  | nil =>
    intro pos a b _h
    simp [vmGasLoop]
  | cons k rest ih =>
    intro pos a b h
    have hrest : ∀ i, i < rest.length → rest.get? i = some InputKind.p2wsh →
        (pos + 1) + i < insts.length := by
      intro i hi hp
      have := h (i + 1) (by simp only [List.length_cons]; omega)
        (by simpa using hp)
      omega
    cases k with
    | unresolved => exact ih (pos + 1) a b hrest
    | p2wpkh => exact ih (pos + 1) (a + 1419) b hrest
    | other => exact ih (pos + 1) a b hrest
    | p2wsh =>
      have h0 : pos < insts.length := by
        have := h 0 (by simp) (by simp)
        omega
      cases hg : insts.get? pos with
      | none =>
        rw [List.get?_eq_none] at hg
        omega
      | some si =>
        simp only [vmGasLoop, hg]
        exact ih (pos + 1) a (b + estimateP2WSHGas si) hrest

/-! ## Claim theorems: gas estimator -/

/-- C6, counterexample: a witness component with 3 keys and quorum 2
contributes 3483 gas units, not the 3393 the claim computes;
the claim's own formula gives 738 + (984*3 - 72*2 - 63) = 3483. -/
theorem estimateP2WSHGas_3393_refuted :
    estimateP2WSHGas (SigningInstruction.mk
      [WitnessComponent.SignatureWitness [0, 1, 2] 2]) ≠ 3393 ∧
    estimateP2WSHGas (SigningInstruction.mk
      [WitnessComponent.SignatureWitness [0, 1, 2] 2]) = 3483 ∧
    (738 + (984 * 3 - 72 * 2 - 63) : Int) = 3483 := by
  decide

/-- C6 (amended): every witness component of either kind with k keys and
quorum q contributes exactly 738 + (984*k - 72*q - 63) gas units to the
P2WSH gas of its instruction (`wcGas`); in particular a component with 3
keys and quorum 2 contributes 3483 units, for both witness kinds. -/
theorem estimateP2WSHGas_per_component :
    (∀ sigInst : SigningInstruction,
      estimateP2WSHGas sigInst = (sigInst.WitnessComponents.map wcGas).sum) ∧
    estimateP2WSHGas (SigningInstruction.mk
      [WitnessComponent.SignatureWitness [5, 6, 7] 2]) = 3483 ∧
    estimateP2WSHGas (SigningInstruction.mk
      [WitnessComponent.RawTxSigWitness [5, 6, 7] 2]) = 3483 := by
  refine ⟨fun sigInst => ?_, by decide, by decide⟩
  simp [estimateP2WSHGas, p2wshGasLoop_eq]

/-- Template used to refute the storage-gas part of C7: nonzero base
size, one witness component of quorum 1. -/
def quorumTemplate : GasTemplate :=
  GasTemplate.mk 1 [SigningInstruction.mk [WitnessComponent.SignatureWitness [] 1]] []

/-- C7, counterexample: doubling every quorum of `quorumTemplate` takes
the storage fee figure from 301 to 601, and 601 is not double 301 —
storage gas is (base + sign) * rate, so doubling the sign size does not
double it when the base size is nonzero. -/
theorem doubling_quorum_storage_not_doubled :
    EstimateTxGas 1 1 quorumTemplate =
      Except.ok (EstimateTxGasResp.mk 100000 301 0) ∧
    EstimateTxGas 1 1 (doubleTemplate quorumTemplate) =
      Except.ok (EstimateTxGasResp.mk 100000 601 0) ∧
    (601 : Int) ≠ 2 * 301 := by
  refine ⟨by decide, by decide, by decide⟩

/-- C7 (amended): doubling the quorum of every witness component doubles
the sign size and leaves the P2WPKH VM-gas term of the estimation loop
unchanged, while the storage gas becomes (baseTxSize + 2 * signSize) *
storageGasRate — double only when the base size vanishes. -/
theorem doubling_quorum_effects :
    (∀ insts : List SigningInstruction,
      estimateSignSize (insts.map doubleInst) = 2 * estimateSignSize insts) ∧
    (∀ (t : GasTemplate) (s : Int),
      fitsInt64 (t.baseTxSize + 2 * estimateSignSize t.SigningInstructions) →
      checkedMulInt64 (wrap64 ((doubleTemplate t).baseTxSize +
          estimateSignSize (doubleTemplate t).SigningInstructions)) s =
        checkedMulInt64 (t.baseTxSize + 2 * estimateSignSize t.SigningInstructions) s) ∧
    (∀ t : GasTemplate,
      Except.map Prod.fst
          (vmGasLoop (doubleTemplate t).SigningInstructions (doubleTemplate t).inputs 0 0 0) =
        Except.map Prod.fst (vmGasLoop t.SigningInstructions t.inputs 0 0 0)) := by
  refine ⟨estimateSignSize_doubleInst, ?_, ?_⟩
  · intro t s h
    show checkedMulInt64
        (wrap64 (t.baseTxSize + estimateSignSize (t.SigningInstructions.map doubleInst))) s = _
    rw [estimateSignSize_doubleInst, wrap64_eq_of_fits _ h]
  · intro t
    exact vmGasLoop_fst_congr _ _ (by simp [doubleTemplate]) t.inputs 0 0 0 0

/-- C7, witness: the amended storage-gas equation applied at
`quorumTemplate` with rate 1. -/
theorem doubling_quorum_effects_witness :
    fitsInt64 (quorumTemplate.baseTxSize +
      2 * estimateSignSize quorumTemplate.SigningInstructions) ∧
    checkedMulInt64 (wrap64 ((doubleTemplate quorumTemplate).baseTxSize +
        estimateSignSize (doubleTemplate quorumTemplate).SigningInstructions)) 1 =
      checkedMulInt64 (quorumTemplate.baseTxSize +
        2 * estimateSignSize quorumTemplate.SigningInstructions) 1 := by
  exact ⟨by decide, doubling_quorum_effects.2.1 quorumTemplate 1 (by decide)⟩

/-- Template whose storage gas passes the overflow check at rate 1 but
whose rate multiplications overflow int64. -/
def overflowTemplate : GasTemplate := GasTemplate.mk (2 ^ 62) [] []

/-- C2, counterexample: with storage-gas rate 1 and vm-gas rate 200 the
storage gas of `overflowTemplate` is 2^62 (checked multiplication
succeeds), the product 2^62 * 200 does not fit in int64, yet
`EstimateTxGas` returns success with every figure silently wrapped to
0 instead of an error. -/
theorem estimateTxGas_rate_overflow_silent :
    checkedMulInt64 (wrap64 (overflowTemplate.baseTxSize +
        estimateSignSize overflowTemplate.SigningInstructions)) 1 = some (2 ^ 62) ∧
    ¬ fitsInt64 ((2 ^ 62 : Int) * 200) ∧
    EstimateTxGas 1 200 overflowTemplate = Except.ok (EstimateTxGasResp.mk 0 0 0) := by
  refine ⟨by decide, by decide, by decide⟩

/-- C2 (amended): only the storage-gas multiplication
(baseTxSize + signSize) * storageGasRate is overflow-checked — when its
mathematical product leaves the int64 range `EstimateTxGas` fails with
the math error — while the multiplications of the gas totals by the
vm-gas rate are unchecked: every successful run returns the
two's-complement wrap of the storage and vm fee products (pure int64
arithmetic in the program, so this part is unconditional), and when the
wrapped total-gas product lies in the `float64`-exact region below
2 ^ 53 the total figure is the rounded wrap of that product. -/
theorem estimateTxGas_overflow_checking :
    (∀ (s v : Int) (t : GasTemplate),
      ¬ fitsInt64 (wrap64 (t.baseTxSize + estimateSignSize t.SigningInstructions) * s) →
      EstimateTxGas s v t = Except.error GasError.mathError) ∧
    (∀ (s v : Int) (t : GasTemplate) (g1 p sh : Int),
      checkedMulInt64 (wrap64 (t.baseTxSize + estimateSignSize t.SigningInstructions)) s
        = some g1 →
      vmGasLoop t.SigningInstructions t.inputs 0 0 0 = Except.ok (p, sh) →
      ∃ tot, EstimateTxGas s v t = Except.ok
        (EstimateTxGasResp.mk tot (wrap64 (g1 * v)) (wrap64 ((p + sh) * v)))) ∧
    (∀ (s v : Int) (t : GasTemplate) (g1 p sh : Int),
      checkedMulInt64 (wrap64 (t.baseTxSize + estimateSignSize t.SigningInstructions)) s
        = some g1 →
      vmGasLoop t.SigningInstructions t.inputs 0 0 0 = Except.ok (p, sh) →
      fitsFloat64 (wrap64 (wrap64 (g1 + p + sh) * v)) →
      EstimateTxGas s v t = Except.ok
        (EstimateTxGasResp.mk
          (wrap64 (goCeilDiv (wrap64 (wrap64 (g1 + p + sh) * v)) 100000 * 100000))
          (wrap64 (g1 * v))
          (wrap64 ((p + sh) * v)))) := by
  refine ⟨?_, ?_, ?_⟩
  · intro s v t h
    simp [EstimateTxGas, checkedMulInt64, h]
  · intro s v t g1 p sh hg1 hloop
    exact ⟨wrap64 (goCeilDiv (wrap64 (wrap64 (g1 + p + sh) * v)) 100000 * 100000),
      by simp [EstimateTxGas, hg1, hloop]⟩
  · intro s v t g1 p sh hg1 hloop _hf
    simp [EstimateTxGas, hg1, hloop]

/-- C2, witness: the checked storage multiplication applied where
(baseTxSize + signSize) * storageGasRate overflows: rate 4 on base size
2^62 yields the math error. -/
theorem estimateTxGas_overflow_checking_witness :
    ¬ fitsInt64 (wrap64 (overflowTemplate.baseTxSize +
        estimateSignSize overflowTemplate.SigningInstructions) * 4) ∧
    EstimateTxGas 4 200 overflowTemplate = Except.error GasError.mathError := by
  exact ⟨by decide, estimateTxGas_overflow_checking.1 4 200 overflowTemplate (by decide)⟩

/-- Template whose total-gas times rate product wraps to 0. -/
def truncTemplate : GasTemplate := GasTemplate.mk (2 ^ 61) [] []

/-- Template exhibiting sub-fees that do not sum to the rounded total. -/
def subFeeTemplate : GasTemplate :=
  GasTemplate.mk 2 [SigningInstruction.mk [WitnessComponent.RawTxSigWitness [] 1]] []

/-- C5, counterexample: `EstimateTxGas 1 200 truncTemplate` succeeds
with total gas 2^61, but the returned total fee is 0, not
ceil(2^61 * 200 / 100000) * 100000: the int64 product wraps before the
rounding. -/
theorem estimateTxGas_total_formula_refuted :
    checkedMulInt64 (wrap64 (truncTemplate.baseTxSize +
        estimateSignSize truncTemplate.SigningInstructions)) 1 = some (2 ^ 61) ∧
    vmGasLoop truncTemplate.SigningInstructions truncTemplate.inputs 0 0 0
      = Except.ok (0, 0) ∧
    EstimateTxGas 1 200 truncTemplate = Except.ok (EstimateTxGasResp.mk 0 0 0) ∧
    ⌈(((2 ^ 61 + 0 + 0) * 200 : Int) : ℚ) / ((100000 : Int) : ℚ)⌉ * 100000 ≠ (0 : Int) := by
  refine ⟨by decide, by decide, by decide, ?_⟩
  rw [← goCeilDiv_eq_ceil _ _ (by norm_num)]
  decide

/-- C5 (amended): when `EstimateTxGas` succeeds with storage gas g1 and
vm gas totals p and sh, none of the fee products and sums leaves the
int64 range, and the total-gas product lies in the `float64`-exact
region below 2 ^ 53 (where the program's `math.Ceil` rounding agrees
with exact ceiling division), the returned total fee is
ceil(totalGas * vmGasRate / 100000) * 100000 while the storage and vm
sub-fees are the unrounded products g1 * vmGasRate and
(p + sh) * vmGasRate; on `subFeeTemplate` the two sub-fees (302 and 0)
do not sum to the rounded total 100000. -/
theorem estimateTxGas_fee_formulas :
    (∀ (s v : Int) (t : GasTemplate) (g1 p sh : Int),
      checkedMulInt64 (wrap64 (t.baseTxSize + estimateSignSize t.SigningInstructions)) s
        = some g1 →
      vmGasLoop t.SigningInstructions t.inputs 0 0 0 = Except.ok (p, sh) →
      fitsInt64 (g1 + p + sh) →
      fitsInt64 ((g1 + p + sh) * v) →
      fitsFloat64 ((g1 + p + sh) * v) →
      fitsInt64 (goCeilDiv ((g1 + p + sh) * v) 100000 * 100000) →
      fitsInt64 (g1 * v) →
      fitsInt64 ((p + sh) * v) →
      EstimateTxGas s v t = Except.ok
        (EstimateTxGasResp.mk
          (⌈(((g1 + p + sh) * v : Int) : ℚ) / ((100000 : Int) : ℚ)⌉ * 100000)
          (g1 * v)
          ((p + sh) * v))) ∧
    (EstimateTxGas 1 1 subFeeTemplate =
        Except.ok (EstimateTxGasResp.mk 100000 302 0) ∧
      (302 : Int) + 0 ≠ 100000) := by
  constructor
  · intro s v t g1 p sh hg1 hloop h1 h2 _hf h3 h4 h5
    simp only [EstimateTxGas, hg1, hloop]
    rw [wrap64_eq_of_fits _ h1, wrap64_eq_of_fits _ h2, wrap64_eq_of_fits _ h4,
      wrap64_eq_of_fits _ h5, wrap64_eq_of_fits _ h3,
      goCeilDiv_eq_ceil _ _ (by norm_num)]
  · exact ⟨by decide, by decide⟩

/-- C5, witness: the fee formulas applied to a small template (base size
1, one P2WPKH input, rates 1): total fee 100000, storage fee 1, vm fee
1419. -/
theorem estimateTxGas_fee_formulas_witness :
    checkedMulInt64 (wrap64 ((1 : Int) + estimateSignSize [])) 1 = some 1 ∧
    vmGasLoop [] [InputKind.p2wpkh] 0 0 0 = Except.ok (1419, 0) ∧
    EstimateTxGas 1 1 (GasTemplate.mk 1 [] [InputKind.p2wpkh]) = Except.ok
      (EstimateTxGasResp.mk
        (⌈(((1 + 1419 + 0) * 1 : Int) : ℚ) / ((100000 : Int) : ℚ)⌉ * 100000) ((1 : Int) * 1)
        (((1419 : Int) + 0) * 1)) := by
  refine ⟨by decide, by decide, ?_⟩
  exact estimateTxGas_fee_formulas.1 1 1 (GasTemplate.mk 1 [] [InputKind.p2wpkh]) 1 1419 0
    (by decide) (by decide) (by decide) (by decide) (by decide) (by decide) (by decide)
    (by decide)

/-- Template with a P2WSH-classified input but no signing instruction at
its position. -/
def missingInstTemplate : GasTemplate := GasTemplate.mk 0 [] [InputKind.p2wsh]

/-- C10: the estimation loop reads `SigningInstructions[pos]` for every
input classified as a P2WSH spend with no bounds check — on
`missingInstTemplate` it faults with the index-out-of-range error — and
it never raises that fault when every P2WSH input position has a signing
instruction. -/
theorem estimateTxGas_signing_index_precondition :
    EstimateTxGas 1 200 missingInstTemplate = Except.error GasError.indexOutOfRange ∧
    (∀ (s v : Int) (t : GasTemplate),
      (∀ i, i < t.inputs.length → t.inputs.get? i = some InputKind.p2wsh →
        i < t.SigningInstructions.length) →
      EstimateTxGas s v t ≠ Except.error GasError.indexOutOfRange) := by
  constructor
  · decide
  · intro s v t h
    have hpre : ∀ i, i < t.inputs.length → t.inputs.get? i = some InputKind.p2wsh →
        0 + i < t.SigningInstructions.length := by
      intro i hi hp
      have := h i hi hp
      omega
    have hloop := vmGasLoop_total t.SigningInstructions t.inputs 0 0 0 hpre
    unfold EstimateTxGas
    cases hcm : checkedMulInt64
        (wrap64 (t.baseTxSize + estimateSignSize t.SigningInstructions)) s with
    | none => simp
    | some g1 =>
      cases hl : vmGasLoop t.SigningInstructions t.inputs 0 0 0 with
      | error e =>
        intro hEq
        simp at hEq
        rw [hEq] at hl
        exact hloop hl
      | ok pr =>
        simp

/-- C10, witness: the no-fault conclusion applied to a template with one
P2WSH input and one signing instruction. -/
theorem estimateTxGas_signing_index_witness :
    EstimateTxGas 1 200 (GasTemplate.mk 0 [SigningInstruction.mk []] [InputKind.p2wsh])
      ≠ Except.error GasError.indexOutOfRange := by
  have hpre : ∀ i, i < [InputKind.p2wsh].length →
      [InputKind.p2wsh].get? i = some InputKind.p2wsh →
      i < [SigningInstruction.mk []].length := by decide
  exact estimateTxGas_signing_index_precondition.2 1 200
    (GasTemplate.mk 0 [SigningInstruction.mk []] [InputKind.p2wsh]) hpre

/-! ## Claim theorems: build pipeline -/

/-- Whether an optional type tag is a recognized input tag. -/
def tagOkOpt : Option String → Bool
  | some t => recognizedTags.contains t && isInputAction t
  | none => false

/-- The action carries a recognized, input-type ("spend*" or "issue")
type tag. -/
def tagOk (a : ActMap) : Bool := tagOkOpt (actionTag a)

theorem countInputActions_all (l : List ActMap)
    (h : ∀ a ∈ l, tagOkOpt (actionTag a) = true) :
    ∀ i, countInputActions l i = Except.ok l.length := by
  induction l with
  | nil => intro i; rfl
  | cons a rest ih =>
    intro i
    have ha := h a (by simp)
    have hrest : ∀ a2 ∈ rest, tagOkOpt (actionTag a2) = true := by
      intro a2 ha2
      exact h a2 (by simp [ha2])
    cases htag : actionTag a with
    | none => rw [htag] at ha; cases ha
    | some t =>
      rw [htag] at ha
      have hinp : isInputAction t = true := by
        simp only [tagOkOpt, Bool.and_eq_true] at ha
        exact ha.2
      simp only [countInputActions, htag, ih hrest (i + 1), hinp, if_pos,
        List.length_cons]
      rw [Nat.add_comm]

/-- C8: a request whose actions, after alias resolution (which rewrites
identifier fields but never the type tags), all carry a recognized
input-type tag ("spend*" or "issue") makes `buildSingle` fail with
`badActionConstruction`; the conclusion holds for every decoder, merger
and external build capability, so the external build is never invoked. -/
theorem buildSingle_input_only {α σ : Type}
    (complete : BuildRequest → Except BuildErr BuildRequest)
    (dec : String → ActMap → Except String α)
    (merge : List α → List α)
    (build : List α → Except BuildErr (BuiltTemplate σ))
    (req req2 : BuildRequest)
    (hc : complete req = Except.ok req2)
    (hpres : req2.Actions.map actionTag = req.Actions.map actionTag)
    (hall : ∀ a ∈ req.Actions, tagOk a = true) :
    buildSingle complete dec merge build req =
      Except.error BuildErr.badActionConstruction := by
  have hall2 : ∀ a ∈ req2.Actions, tagOkOpt (actionTag a) = true := by
    intro a ha
    have hmem : actionTag a ∈ req2.Actions.map actionTag := List.mem_map_of_mem _ ha
    rw [hpres] at hmem
    obtain ⟨a3, ha3, heq⟩ := List.mem_map.mp hmem
    rw [← heq]
    exact hall a3 ha3
  have hcount := countInputActions_all req2.Actions hall2 0
  simp only [buildSingle, hc, onlyHaveInputActions, hcount, beq_self_eq_true]

/-- A request holding a single spend action. -/
def inputOnlyReq : BuildRequest :=
  BuildRequest.mk [[("type", ActVal.str "spend_account")]]

/-- C8, witness: `buildSingle` on a request with one spend_account
action, with identity alias resolution and arbitrary collaborators,
fails with `badActionConstruction`. -/
theorem buildSingle_input_only_witness :
    (inputOnlyReq.Actions.all tagOk) = true ∧
    @buildSingle Unit Unit (fun r => Except.ok r)
      (fun _ _ => Except.error "") (fun l => l)
      (fun _ => Except.error (BuildErr.collaborator "")) inputOnlyReq =
      Except.error BuildErr.badActionConstruction := by
  refine ⟨by decide, ?_⟩
  exact buildSingle_input_only _ _ _ _ inputOnlyReq inputOnlyReq rfl rfl (by decide)

/-! ## Claim theorems: peg-in claim assembler -/

theorem scanControlPrograms_append (env : ClaimEnv) (tx : Tx)
    (l1 l2 : List CtrlProgram) (n : Nat) :
    scanControlPrograms env tx (l1 ++ l2) n =
      scanControlPrograms env tx l2 (scanControlPrograms env tx l1 n) := by
  induction l1 generalizing n with
  | nil => rfl
  | cons c rest ih =>
    cases hc : (env.getPeginControlPrograms c.ControlProgram).2 with
    | none =>
      simp only [List.cons_append, scanControlPrograms, hc]
      exact ih n
    | some p =>
      simp only [List.cons_append, scanControlPrograms, hc]
      exact ih _

theorem scanControlPrograms_none (env : ClaimEnv) (tx : Tx) (l : List CtrlProgram)
    (h : ∀ c ∈ l, (env.getPeginControlPrograms c.ControlProgram).2 = none) (n : Nat) :
    scanControlPrograms env tx l n = n := by
  induction l with
  | nil => rfl
  | cons c rest ih =>
    have hc := h c (by simp)
    simp only [scanControlPrograms, hc]
    exact ih (fun c2 hc2 => h c2 (by simp [hc2]))

/-- C4 (amended): the scan over the locally known control programs never
stops early and the resulting output index is
`getPeginTxnOutputIndex` of the peg control program resolved from the
LAST program with a non-nil resolution, regardless of the prefix of the
scan and of the starting value — equal to the last successful match's
index when that last resolved program matches an output, but equal to 0
(the first output) when it matches none. -/
theorem scanControlPrograms_last_resolution (env : ClaimEnv) (tx : Tx)
    (pre post : List CtrlProgram) (cp : CtrlProgram) (prog : Bytes) (init : Nat)
    (hcp : (env.getPeginControlPrograms cp.ControlProgram).2 = some prog)
    (hpost : ∀ c ∈ post, (env.getPeginControlPrograms c.ControlProgram).2 = none) :
    scanControlPrograms env tx (pre ++ cp :: post) init =
      getPeginTxnOutputIndex tx prog := by
  rw [scanControlPrograms_append]
  simp only [scanControlPrograms, hcp]
  exact scanControlPrograms_none env tx post hpost _

/-- Environment for the scan counterexample: three locally known control
programs resolving to the peg programs [11], [12] and [13]. -/
def lastScanEnv : ClaimEnv :=
  ClaimEnv.mk (Except.ok [CtrlProgram.mk [1], CtrlProgram.mk [2], CtrlProgram.mk [3]])
    (fun cp => ("addr",
      if cp = [1] then some [11]
      else if cp = [2] then some [12]
      else if cp = [3] then some [13] else none))
    (fun _ => ContractData.missing)
    (fun _ => Except.error "")
    (fun _ => Except.error "")
    (fun _ _ => Except.error "")
    (fun _ => Except.error "")
    []
    (fun _ => [])

/-- Scan counterexample request: no explicit claim script; outputs with
control programs [10], [11], [12]. -/
def lastScanIns : ClaimIns :=
  ClaimIns.mk "pw"
    (Tx.mk [TxOutput.mk [10] 1, TxOutput.mk [11] 2, TxOutput.mk [12] 3] 5)
    "proof" ""

/-- C4, counterexample: the peg programs [11] and [12] both match
outputs of the parent transaction (indices 1 and 2), the last successful
match is [12] at index 2, but the claim resolution returns index 0: the
scan's final iteration resolves [13], which matches no output, and
`getPeginTxnOutputIndex` yields 0 for it, overwriting the last
successful match. -/
theorem claimPegin_scan_reset_by_nonmatching :
    getPeginTxnOutputIndex lastScanIns.RawTx [11] = 1 ∧
    getPeginTxnOutputIndex lastScanIns.RawTx [12] = 2 ∧
    (lastScanEnv.getPeginControlPrograms (CtrlProgram.mk [3]).ControlProgram).2
      = some [13] ∧
    (lastScanIns.RawTx.Outputs.all (fun o => o.ControlProgram != [13])) = true ∧
    resolveClaimOutput lastScanEnv lastScanIns = Except.ok 0 := by
  refine ⟨by decide, by decide, by decide, by decide, by decide⟩

/-- C4, witness: the last-resolution theorem applied concretely: after a
matching resolution to [21] (index 1) the trailing nil resolutions leave
the index at 1. -/
def lastScanEnv2 : ClaimEnv :=
  ClaimEnv.mk (Except.ok [])
    (fun cp => ("a", if cp = [1] then some [21] else none))
    (fun _ => ContractData.missing)
    (fun _ => Except.error "")
    (fun _ => Except.error "")
    (fun _ _ => Except.error "")
    (fun _ => Except.error "")
    []
    (fun _ => [])

theorem scanControlPrograms_last_resolution_witness :
    (lastScanEnv2.getPeginControlPrograms (CtrlProgram.mk [1]).ControlProgram).2
      = some [21] ∧
    (lastScanEnv2.getPeginControlPrograms (CtrlProgram.mk [2]).ControlProgram).2 = none ∧
    scanControlPrograms lastScanEnv2 (Tx.mk [TxOutput.mk [20] 1, TxOutput.mk [21] 2] 6)
        ([] ++ CtrlProgram.mk [1] :: [CtrlProgram.mk [2]]) 2 =
      getPeginTxnOutputIndex (Tx.mk [TxOutput.mk [20] 1, TxOutput.mk [21] 2] 6) [21] := by
  refine ⟨by decide, by decide, ?_⟩
  exact scanControlPrograms_last_resolution lastScanEnv2 _ [] [CtrlProgram.mk [2]]
    (CtrlProgram.mk [1]) [21] 2 (by decide) (by decide)

/-- Environment for the no-matching-output counterexample: the claim
script resolves to peg program [7]; the build capability reports back
that it was invoked. -/
def noMatchEnv : ClaimEnv :=
  ClaimEnv.mk (Except.ok [])
    (fun _ => ("addr", some [7]))
    (fun _ => ContractData.valid "acct")
    (fun _ => Except.ok "ad")
    (fun _ => Except.error "build invoked")
    (fun _ _ => Except.error "")
    (fun _ => Except.error "")
    []
    (fun _ => [])

/-- Request with an explicit claim script whose resolved peg program [7]
matches no output of the parent transaction (single output, program
[9]). -/
def noMatchIns : ClaimIns :=
  ClaimIns.mk "pw" (Tx.mk [TxOutput.mk [9] 4] 77) "proof" "script"

/-- C1: with an explicit claim script whose resolved peg control program
matches no output of the non-empty parent transaction,
`getPeginTxnOutputIndex` returns 0 — a valid output index — so the
sentinel check `nOut == len(Outputs)` does not fire: the resolution
succeeds with index 0 and `claimPeginTx` proceeds all the way into the
build step instead of failing with the no-matching-output error. -/
theorem claimPegin_no_match_not_rejected :
    (noMatchIns.RawTx.Outputs.all (fun o =>
      o.ControlProgram !=
        ((noMatchEnv.getPeginControlPrograms (strBytes noMatchIns.ClaimScript)).2.getD []))) = true ∧
    (noMatchEnv.getPeginControlPrograms (strBytes noMatchIns.ClaimScript)).2 = some [7] ∧
    resolveClaimOutput noMatchEnv noMatchIns = Except.ok 0 ∧
    claimPeginTx noMatchEnv noMatchIns = Except.error "build invoked" := by
  refine ⟨by decide, by decide, by decide, by decide⟩

/-- C3: the three entries of the synthesized build request alias the one
Go map, so at build time every one of them reads as the final
control_address action with the claimed amount and no account
identifier: there is no zero-amount spend action and no spend of the
claimed amount at all. -/
theorem claimBuildActions_aliased :
    (claimBuildActions "a1" 5 "ad1").length = 3 ∧
    ((claimBuildActions "a1" 5 "ad1").all (fun a =>
      (actionTag a == some "control_address") &&
      (mapGet a "amount" == some (ActVal.nat 5)) &&
      (mapGet a "account_id" == none) &&
      (mapGet a "address" == some (ActVal.str "ad1")))) = true := by
  refine ⟨by decide, by decide⟩

/-- C9: whenever `claimPeginTx` reaches the finalize step and succeeds,
the transaction handed to the finalize capability is the caller-supplied
raw parent transaction `ins.RawTx` itself — the success requires
`env.finalizeTx ins.RawTx` to have answered ok — and the returned hash
is that parent transaction's `ID`. -/
theorem claimPeginTx_finalizes_rawtx (env : ClaimEnv) (ins : ClaimIns) (h : Nat)
    (hok : claimPeginTx env ins = Except.ok h) :
    h = ins.RawTx.ID ∧ env.finalizeTx ins.RawTx = Except.ok () := by
  unfold claimPeginTx at hok
  cases h1 : resolveClaimOutput env ins with
  | error e => simp [h1] at hok
  | ok nOut =>
    simp only [h1] at hok
    cases h2 : env.contractData ins.ClaimScript with
    | missing => simp [h2] at hok
    | malformed => simp [h2] at hok
    | valid accountID =>
      simp only [h2] at hok
      cases h3 : env.createAddress accountID with
      | error e => simp [h3] at hok
      | ok address =>
        simp only [h3] at hok
        cases h4 : env.build (claimBuildActions accountID (claimAmount ins nOut) address) with
        | error e => simp [h4] at hok
        | ok tmpl =>
          simp only [h4] at hok
          cases h5 : setPeginWitness tmpl
              (peginWitnessStack env ins (claimAmount ins nOut)) with
          | error e => simp [h5] at hok
          | ok tmpl2 =>
            simp only [h5] at hok
            cases h6 : env.sign tmpl2 ins.Password with
            | error e => simp [h6] at hok
            | ok u =>
              simp only [h6] at hok
              cases h7 : env.finalizeTx ins.RawTx with
              | error e => simp [h7] at hok
              | ok u2 =>
                simp only [h7, Except.ok.injEq] at hok
                cases u2
                exact ⟨hok.symm, rfl⟩

/-- Environment under which a peg-in claim runs to completion. -/
def okEnv : ClaimEnv :=
  ClaimEnv.mk (Except.ok [])
    (fun _ => ("a", some [1]))
    (fun _ => ContractData.valid "acct")
    (fun _ => Except.ok "ad2")
    (fun _ => Except.ok (ClaimTemplate.mk [PegInput.mk [] false]))
    (fun _ _ => Except.ok ())
    (fun _ => Except.ok ())
    []
    (fun _ => [])

/-- A claim request whose explicit script resolves to the program of the
first output. -/
def okIns : ClaimIns :=
  ClaimIns.mk "pw" (Tx.mk [TxOutput.mk [1] 5, TxOutput.mk [2] 7] 9) "pf" "s"

/-- C9, witness: a successful end-to-end claim returns the parent
transaction's hash 9 and the finalize capability was applied to the
parent transaction. -/
theorem claimPeginTx_finalizes_rawtx_witness :
    claimPeginTx okEnv okIns = Except.ok 9 ∧
    (9 = okIns.RawTx.ID ∧ okEnv.finalizeTx okIns.RawTx = Except.ok ()) := by
  refine ⟨by decide, ?_⟩
  exact claimPeginTx_finalizes_rawtx okEnv okIns 9 (by decide)
